import Mathlib

/-!
Verification model of the `cloud-watch-client` repository (`src/main.go`).

The program discovers CloudWatch log groups, starts a Logs Insights query per
group, polls each query until its status is the literal string "Complete",
normalizes the generic field/value records into a three-field structure and
prints each result's message line.

The embedding below translates the Go functions into Lean:
  * `ParseTime`        — `ParseTime` (Go `time.Parse` with the RFC3339 layout,
                         Go 1.19 semantics, modelled character by character);
  * `UnixMillisecond`  — `UnixMillisecond` (`t.UnixNano() / int64(time.Millisecond)`,
                         with 64-bit two's-complement wraparound of `UnixNano`);
  * `AssembleQuery`    — the fixed query template;
  * `GetGroupAll`      — discovery that swallows service errors into `[]`;
  * `DoQuery`          — time parsing + start-query submission;
  * `Result`           — the get-results poll loop plus record normalization;
  * `runLoop`/`mainRun`— the orchestration loop of `main`.

External services are modelled as explicit response values: discovery as one
`Except` response, start-query as a function of the submitted input, and
get-results as the stream (list) of successive responses the service would
give; the poll loop consumes that stream one call at a time.  Sleeps and
service calls are recorded in an event trace.  Log/telemetry output (zap) and
the stray keyword echo are not part of the modelled output stream; the output
lines are those produced by `fmt.Println` for results and submission errors.
-/

deriving instance DecidableEq for Except

namespace CWC

/-! ## Characters and digits (Go `isDigit`, `atoi` on fixed-width fields) -/

def isDigitChar (c : Char) : Bool := 48 ≤ c.toNat && c.toNat ≤ 57

def digitVal (c : Char) : Nat := c.toNat - 48

/-- Literal character in the layout: must match exactly. -/
def lit (c : Char) : List Char → Option (List Char)
  | d :: rest => if d = c then some rest else none
  | [] => none

/-- Go `getnum(s, true)`: exactly two digits. -/
def getnum2 : List Char → Option (Nat × List Char)
  | c1 :: c2 :: rest =>
    if isDigitChar c1 && isDigitChar c2 then
      some (10 * digitVal c1 + digitVal c2, rest)
    else none
  | _ => none

/-- Go `getnum(s, false)`: one digit, or two when the second char is a digit. -/
def getnum1or2 : List Char → Option (Nat × List Char)
  | [] => none
  | c1 :: rest =>
    if isDigitChar c1 then
      match rest with
      | c2 :: rest2 =>
        if isDigitChar c2 then some (10 * digitVal c1 + digitVal c2, rest2)
        else some (digitVal c1, rest)
      | [] => some (digitVal c1, [])
    else none

/-- Go `stdLongYear`: four digit characters (`atoi` of the first four bytes). -/
def getnum4 : List Char → Option (Nat × List Char)
  | c1 :: c2 :: c3 :: c4 :: rest =>
    if isDigitChar c1 && isDigitChar c2 && isDigitChar c3 && isDigitChar c4 then
      some (1000 * digitVal c1 + 100 * digitVal c2 + 10 * digitVal c3 + digitVal c4, rest)
    else none
  | _ => none

/-! ## Calendar arithmetic (Go `isLeap`, `daysIn`, `Date`) -/

def isLeap (y : Nat) : Bool := y % 4 == 0 && (y % 100 != 0 || y % 400 == 0)

/-- Cumulative days before month `m` in a non-leap year (Go `daysBefore`). -/
def daysBeforeMonth (m : Nat) : Nat :=
  match m with
  | 1 => 0 | 2 => 31 | 3 => 59 | 4 => 90 | 5 => 120 | 6 => 151
  | 7 => 181 | 8 => 212 | 9 => 243 | 10 => 273 | 11 => 304 | _ => 334

/-- Go `daysIn(m, year)`. -/
def daysIn (m y : Nat) : Nat :=
  if m = 2 then (if isLeap y then 29 else 28)
  else
    match m with
    | 1 => 31 | 3 => 31 | 4 => 30 | 5 => 31 | 6 => 30 | 7 => 31
    | 8 => 31 | 9 => 30 | 10 => 31 | 11 => 30 | _ => 31

/-- Number of leap years in `[0, y)` of the proleptic Gregorian calendar. -/
def leapsBefore (y : Nat) : Nat :=
  ((y + 3) / 4 + (y + 399) / 400) - (y + 99) / 100

/-- Days from the Unix epoch (1970-01-01) to the civil date `y-m-d`. -/
def epochDays (y m d : Nat) : Int :=
  ((365 * y + leapsBefore y + daysBeforeMonth m
     + (if isLeap y && decide (2 < m) then 1 else 0) + (d - 1) : Nat) : Int)
    - 719528

/-- Seconds since the Unix epoch of `y-m-d h:mi:s` at UTC offset `zoff` seconds
(Go constructs the UTC date and then subtracts the zone offset). -/
def epochSec (y m d h mi s : Nat) (zoff : Int) : Int :=
  epochDays y m d * 86400 + ((h * 3600 + mi * 60 + s : Nat) : Int) - zoff

/-! ## The parsed time value (Go `time.Time`, reduced to its Unix view) -/

structure GoTime where
  sec : Int
  nsec : Nat
deriving DecidableEq

/-! ## The RFC3339 layout parse, Go 1.19 `time.Parse` semantics -/

/-- Fractional-second consumption (Go `parseNanoseconds`): the separator plus
all following digit characters are consumed; only the first nine digits
contribute, scaled to nanoseconds. -/
def parseNanos : List Char → Nat × List Char
  | [] => (0, [])
  | _ :: rest =>
    let ds := rest.takeWhile isDigitChar
    let rest2 := rest.dropWhile isDigitChar
    let nbytes := min (ds.length + 1) 10
    let v := (ds.take (nbytes - 1)).foldl (fun a c => 10 * a + digitVal c) 0
    (v * 10 ^ (10 - nbytes), rest2)

/-- Go's special case after the seconds field: a fraction is consumed when the
next character is a period or a comma followed by a digit. -/
def fracStep : List Char → Nat × List Char
  | c1 :: c2 :: rest =>
    if (c1 = '.' || c1 = ',') && isDigitChar c2 then parseNanos (c1 :: c2 :: rest)
    else (0, c1 :: c2 :: rest)
  | s => (0, s)

/-- The signed-offset arm of the zone parse: a sign, two digits, a colon and
two digits; Go 1.19 performs no range check on the offset. -/
def zoneTail (c0 : Char) : List Char → Option (Int × List Char)
  | c1 :: c2 :: c3 :: c4 :: c5 :: rest2 =>
    if (c3 = ':') && isDigitChar c1 && isDigitChar c2 && isDigitChar c4 && isDigitChar c5
        && (c0 = '+' || c0 = '-') then
      some (if c0 = '-' then
          -(((10 * digitVal c1 + digitVal c2) * 3600
            + (10 * digitVal c4 + digitVal c5) * 60 : Nat) : Int)
        else (((10 * digitVal c1 + digitVal c2) * 3600
            + (10 * digitVal c4 + digitVal c5) * 60 : Nat) : Int), rest2)
    else none
  | _ => none

/-- Go `stdISO8601ColonTZ` (`Z07:00`): the literal `Z`, or the signed-offset
form. -/
def parseZone : List Char → Option (Int × List Char)
  | [] => none
  | c0 :: rest => if c0 = 'Z' then some (0, rest) else zoneTail c0 rest

/-- Go `time.Parse(time.RFC3339, ·)` on the layout `2006-01-02T15:04:05Z07:00`:
year (4 digits), literal `-`, month (2), `-`, day (2), `T`, hour (1 or 2
digits, `getnum` non-fixed), `:`, minute (2), `:`, second (2), optional
fractional seconds, zone, end of input; range checks on hour, minute, second,
month and day as in Go 1.19. -/
def parseRFC3339 (s : List Char) : Option GoTime :=
  (getnum4 s).bind fun ys =>
  (lit '-' ys.2).bind fun s1 =>
  (getnum2 s1).bind fun mos =>
  (lit '-' mos.2).bind fun s2 =>
  (getnum2 s2).bind fun ds =>
  (lit 'T' ds.2).bind fun s3 =>
  (getnum1or2 s3).bind fun hs =>
  if 24 ≤ hs.1 then none else
  (lit ':' hs.2).bind fun s4 =>
  (getnum2 s4).bind fun mis =>
  if 60 ≤ mis.1 then none else
  (lit ':' mis.2).bind fun s5 =>
  (getnum2 s5).bind fun ses =>
  if 60 ≤ ses.1 then none else
  (parseZone (fracStep ses.2).2).bind fun zs =>
  if zs.2 ≠ [] then none else
  if mos.1 < 1 ∨ 12 < mos.1 then none else
  if ds.1 < 1 ∨ daysIn mos.1 ys.1 < ds.1 then none else
  some ⟨epochSec ys.1 mos.1 ds.1 hs.1 mis.1 ses.1 zs.1, (fracStep ses.2).1⟩

/-- `ParseTime` from `src/main.go`: `time.Parse(time.RFC3339, target)`; the
error case is `none`. -/
def ParseTime (target : String) : Option GoTime :=
  parseRFC3339 target.toList

/-! ## Epoch milliseconds (Go `UnixMillisecond`) -/

/-- Two's-complement wraparound of a 64-bit signed integer, the defined Go
semantics of `int64` overflow. -/
def wrap64 (x : Int) : Int := (x + 2 ^ 63) % 2 ^ 64 - 2 ^ 63

/-- The mathematically exact number of nanoseconds since the Unix epoch. -/
def unixNanoExact (t : GoTime) : Int := t.sec * 1000000000 + t.nsec

/-- Go `t.UnixNano()`: the exact value wrapped to `int64`. -/
def UnixNano (t : GoTime) : Int := wrap64 (unixNanoExact t)

/-- `UnixMillisecond` from `src/main.go`:
`target.UnixNano() / int64(time.Millisecond)` with Go's truncated division. -/
def UnixMillisecond (t : GoTime) : Int := Int.tdiv (UnixNano t) 1000000

/-! ## The strict RFC-3339 profile of the specification

Written from the spec's words, for comparison with `ParseTime`: a fixed
profile-qualified date-time format — date `YYYY-MM-DD`, literal `T`, time
`hh:mm:ss` with two-digit fields, an optional fraction `.` followed by digits,
and a UTC offset `Z` or `±hh:mm` with in-range offset fields. -/

/-- Strict fraction: only a period may introduce the fractional seconds. -/
def strictFracStep : List Char → Nat × List Char
  | c1 :: c2 :: rest =>
    if (c1 = '.') && isDigitChar c2 then parseNanos (c1 :: c2 :: rest)
    else (0, c1 :: c2 :: rest)
  | s => (0, s)

/-- The signed-offset arm of the strict zone: as the parser's, plus range
checks on the offset hour and minute. -/
def strictZoneTail (c0 : Char) : List Char → Option (Int × List Char)
  | c1 :: c2 :: c3 :: c4 :: c5 :: rest2 =>
    if ((c3 = ':') && isDigitChar c1 && isDigitChar c2 && isDigitChar c4 && isDigitChar c5
        && (c0 = '+' || c0 = '-'))
        && (10 * digitVal c1 + digitVal c2 < 24)
        && (10 * digitVal c4 + digitVal c5 < 60) then
      some (if c0 = '-' then
          -(((10 * digitVal c1 + digitVal c2) * 3600
            + (10 * digitVal c4 + digitVal c5) * 60 : Nat) : Int)
        else (((10 * digitVal c1 + digitVal c2) * 3600
            + (10 * digitVal c4 + digitVal c5) * 60 : Nat) : Int), rest2)
    else none
  | _ => none

/-- Strict UTC offset: `Z`, or a sign with hours below 24 and minutes below 60. -/
def strictZone : List Char → Option (Int × List Char)
  | [] => none
  | c0 :: rest => if c0 = 'Z' then some (0, rest) else strictZoneTail c0 rest

/-- The strict grammar check, mirroring the spec's profile: every numeric
field fixed-width, all fields in range. -/
def strictRFC3339 (s : List Char) : Option GoTime :=
  (getnum4 s).bind fun ys =>
  (lit '-' ys.2).bind fun s1 =>
  (getnum2 s1).bind fun mos =>
  (lit '-' mos.2).bind fun s2 =>
  (getnum2 s2).bind fun ds =>
  (lit 'T' ds.2).bind fun s3 =>
  (getnum2 s3).bind fun hs =>
  if 24 ≤ hs.1 then none else
  (lit ':' hs.2).bind fun s4 =>
  (getnum2 s4).bind fun mis =>
  if 60 ≤ mis.1 then none else
  (lit ':' mis.2).bind fun s5 =>
  (getnum2 s5).bind fun ses =>
  if 60 ≤ ses.1 then none else
  (strictZone (strictFracStep ses.2).2).bind fun zs =>
  if zs.2 ≠ [] then none else
  if mos.1 < 1 ∨ 12 < mos.1 then none else
  if ds.1 < 1 ∨ daysIn mos.1 ys.1 < ds.1 then none else
  some ⟨epochSec ys.1 mos.1 ds.1 hs.1 mis.1 ses.1 zs.1, (strictFracStep ses.2).1⟩

/-- A string conforms to the expected RFC-3339 profile of the spec. -/
def conformsRFC3339 (s : String) : Bool :=
  (strictRFC3339 s.toList).isSome

/-! ## Query results and normalization (`QueryResult`, `Result`) -/

structure QueryResult where
  Timestamp : String
  LogStream : String
  Message : String
deriving DecidableEq

/-- One step of the `switch` over a record's field/value pairs in `Result`. -/
def normStep (q : QueryResult) (e : String × String) : QueryResult :=
  if e.1 = "@timestamp" then { q with Timestamp := e.2 }
  else if e.1 = "@logStream" then { q with LogStream := e.2 }
  else if e.1 = "@message" then { q with Message := e.2 }
  else q

/-- Normalization of one raw record: the inner loop of `Result`, starting from
the zero-valued `QueryResult`. -/
def normalizeRecord (record : List (String × String)) : QueryResult :=
  record.foldl normStep ⟨"", "", ""⟩

/-- Normalization of all records of a response: the outer loop of `Result`. -/
def normalize (results : List (List (String × String))) : List QueryResult :=
  results.map normalizeRecord

/-- A get-query-results response: its status string and its raw records. -/
structure Response where
  status : String
  results : List (List (String × String))
deriving DecidableEq

/-- Observable events of the poll loop: a `GetQueryResults` service call, or a
`time.Sleep` of the given number of seconds. -/
inductive Ev
  | call
  | sleep (secs : Nat)
deriving DecidableEq

/-- The polling loop body of `Result` when `wait` is true, driven by the
stream of responses the service returns to successive calls.  Entered with
the response `out` of the previous call; while `out.Status` is not
"Complete", the call is reissued and then the loop sleeps ten seconds.
`none` means the modelled response stream was exhausted (the Go loop would
keep calling); an `error` response aborts with that error, before sleeping. -/
def pollWait : Response → List (Except String Response) →
    Option (Except String (Response × List Ev))
  | out, svc =>
    if out.status = "Complete" then some (.ok (out, []))
    else
      match svc with
      | [] => none
      | .error e :: _ => some (.error e)
      | .ok out2 :: rest =>
        match pollWait out2 rest with
        | none => none
        | some (.error e) => some (.error e)
        | some (.ok (fin, evs)) => some (.ok (fin, Ev.call :: Ev.sleep 10 :: evs))

/-- `Result` from `src/main.go`: one initial `GetQueryResults` call, the
polling loop when `wait` is true, then normalization of the final response's
records.  Along with the normalized results it returns the event trace of
calls and sleeps. -/
def Result (svc : List (Except String Response)) (wait : Bool) :
    Option (Except String (List QueryResult × List Ev)) :=
  match svc with
  | [] => none
  | .error e :: _ => some (.error e)
  | .ok out :: rest =>
    if wait then
      match pollWait out rest with
      | none => none
      | some (.error e) => some (.error e)
      | some (.ok (fin, evs)) => some (.ok (normalize fin.results, Ev.call :: evs))
    else some (.ok (normalize out.results, [Ev.call]))

/-! ## Discovery, query building, submission and the orchestrator (`main`) -/

/-- `GetGroupAll` from `src/main.go`: on a service error the error is
swallowed and the empty sequence returned; otherwise the group names of the
response. -/
def GetGroupAll (resp : Except String (List String)) : List String :=
  match resp with
  | .error _ => []
  | .ok groups => groups

/-- `AssembleQuery` from `src/main.go`: `fmt.Sprintf` of the fixed template
with the keyword, and always a `nil` error (the second component). -/
def AssembleQuery (keyword : String) : String × Option String :=
  ("fields @timestamp, @message, @logStream | filter @message " ++ keyword, none)

/-- The input of a `StartQuery` service call. -/
structure StartQueryInput where
  startMs : Int
  endMs : Int
  group : String
  query : String

/-- The modelled service: the one discovery response, the start-query
behavior as a function of the submitted input, and the get-results response
stream per query id. -/
structure CWService where
  describeLogGroups : Except String (List String)
  startQuery : StartQueryInput → Except String String
  getQueryResults : String → List (Except String Response)

/-- `DoQuery` from `src/main.go`: parse the start and end option strings,
convert them to epoch milliseconds, and submit the start-query call; a parse
failure or service failure is returned as an error. -/
def DoQuery (startStr endStr : String) (svc : StartQueryInput → Except String String)
    (logGroup query : String) : Except String String :=
  match ParseTime startStr with
  | none => .error "parse error"
  | some parsedFrom =>
    match ParseTime endStr with
    | none => .error "parse error"
    | some parsedTo =>
      svc { startMs := UnixMillisecond parsedFrom, endMs := UnixMillisecond parsedTo,
            group := logGroup, query := query }

/-- How a run ends: falls off the end of `main`, or exits with a code
(`os.Exit(1)` after a submission error print, or zap's `Fatal` after a
result-fetch error).  `stuck` marks an exhausted modelled response stream. -/
inductive Outcome
  | normal
  | exit (code : Nat)
  | stuck
deriving DecidableEq

/-- The `for` loop of `main` over the discovered groups: per group, submit
the query, poll results to completion, and print each normalized result's
message.  Returns the printed lines and how the run ends. -/
def runLoop (svc : CWService) (startStr endStr q : String) :
    List String → List String × Outcome
  | [] => ([], .normal)
  | g :: rest =>
    match DoQuery startStr endStr svc.startQuery g q with
    | .error e => ([e], .exit 1)
    | .ok qid =>
      match Result (svc.getQueryResults qid) true with
      | none => ([], .stuck)
      | some (.error _) => ([], .exit 1)
      | some (.ok (res, _)) =>
        let msgs := res.map (·.Message)
        let next := runLoop svc startStr endStr q rest
        (msgs ++ next.1, next.2)

/-- `main` from `src/main.go` after option parsing and session setup: build
the query (whose error branch only prints), discover the groups, and run the
per-group loop. -/
def mainRun (svc : CWService) (startStr endStr keyword : String) :
    List String × Outcome :=
  let aq := AssembleQuery keyword
  let errLines : List String := match aq.2 with | some e => [e] | none => []
  let next := runLoop svc startStr endStr aq.1 (GetGroupAll svc.describeLogGroups)
  (errLines ++ next.1, next.2)

/-! ## Normalization helpers and lemmas -/

/-- A field name the normalization `switch` recognizes. -/
def recognizedField (f : String) : Bool :=
  f = "@timestamp" || f = "@logStream" || f = "@message"

/-- The value of the last pair of `record` named `name`, or the default `d`
when no pair carries that name. -/
def lastValueD (name : String) (record : List (String × String)) (d : String) : String :=
  (record.filterMap fun e => if e.1 = name then some e.2 else none).getLastD d

theorem normStep_unrecognized (acc : QueryResult) (e : String × String)
    (h : recognizedField e.1 = false) : normStep acc e = acc := by
  simp only [recognizedField, Bool.or_eq_false_iff, decide_eq_false_iff_not] at h
  simp [normStep, h.1.1, h.1.2, h.2]

theorem foldl_normStep_filter (r : List (String × String)) (acc : QueryResult) :
    (r.filter fun e => recognizedField e.1).foldl normStep acc = r.foldl normStep acc := by
  induction r generalizing acc with
  | nil => rfl
  | cons e r ih =>
    cases h : recognizedField e.1 with
    | true => simp [List.filter_cons, h, ih]
    | false => simp [List.filter_cons, h, ih, normStep_unrecognized acc e h]

theorem lastValueD_cons (name : String) (e : String × String)
    (r : List (String × String)) (d : String) :
    lastValueD name (e :: r) d = lastValueD name r (if e.1 = name then e.2 else d) := by
  by_cases hn : e.1 = name
  · simp only [lastValueD, List.filterMap_cons, if_pos hn, List.getLastD_cons]
  · simp only [lastValueD, List.filterMap_cons, if_neg hn]

theorem normStep_Timestamp (acc : QueryResult) (e : String × String) :
    (normStep acc e).Timestamp = if e.1 = "@timestamp" then e.2 else acc.Timestamp := by
  by_cases h1 : e.1 = "@timestamp" <;> by_cases h2 : e.1 = "@logStream" <;>
    by_cases h3 : e.1 = "@message" <;> simp_all [normStep]

theorem normStep_LogStream (acc : QueryResult) (e : String × String) :
    (normStep acc e).LogStream = if e.1 = "@logStream" then e.2 else acc.LogStream := by
  by_cases h1 : e.1 = "@timestamp" <;> by_cases h2 : e.1 = "@logStream" <;>
    by_cases h3 : e.1 = "@message" <;> simp_all [normStep]

theorem normStep_Message (acc : QueryResult) (e : String × String) :
    (normStep acc e).Message = if e.1 = "@message" then e.2 else acc.Message := by
  by_cases h1 : e.1 = "@timestamp" <;> by_cases h2 : e.1 = "@logStream" <;>
    by_cases h3 : e.1 = "@message" <;> simp_all [normStep]

theorem foldl_normStep_last (r : List (String × String)) (acc : QueryResult) :
    r.foldl normStep acc =
      ⟨lastValueD "@timestamp" r acc.Timestamp,
       lastValueD "@logStream" r acc.LogStream,
       lastValueD "@message" r acc.Message⟩ := by
  induction r generalizing acc with
  | nil => simp [lastValueD]
  | cons e r ih =>
    rw [List.foldl_cons, ih, lastValueD_cons, lastValueD_cons, lastValueD_cons,
      normStep_Timestamp, normStep_LogStream, normStep_Message]

theorem lastValueD_absent (name : String) (r : List (String × String)) (d : String)
    (h : ∀ p ∈ r, p.1 ≠ name) : lastValueD name r d = d := by
  induction r with
  | nil => rfl
  | cons e r ih =>
    have he : e.1 ≠ name := h e (by simp)
    simp only [lastValueD, List.filterMap_cons, if_neg he]
    exact ih fun p hp => h p (by simp [hp])

/-! ## Claim theorems -/

/-- C4: normalization maps each raw record to exactly one `QueryResult`, in
order; pairs whose field name is not one of the three recognized names are
ignored, and a recognized output field whose name is absent from the record
stays the empty string, with no failure possible. -/
theorem claim_C4_record_normalization (rs : List (List (String × String))) :
    (normalize rs).length = rs.length ∧
    ∀ record : List (String × String),
      normalizeRecord record = normalizeRecord (record.filter fun e => recognizedField e.1) ∧
      ((∀ p ∈ record, p.1 ≠ "@timestamp") → (normalizeRecord record).Timestamp = "") ∧
      ((∀ p ∈ record, p.1 ≠ "@logStream") → (normalizeRecord record).LogStream = "") ∧
      ((∀ p ∈ record, p.1 ≠ "@message") → (normalizeRecord record).Message = "") := by
  refine ⟨by simp [normalize], fun record => ⟨?_, ?_, ?_, ?_⟩⟩
  · exact (foldl_normStep_filter record ⟨"", "", ""⟩).symm
  · intro h
    rw [normalizeRecord, foldl_normStep_last]
    exact lastValueD_absent _ _ _ h
  · intro h
    rw [normalizeRecord, foldl_normStep_last]
    exact lastValueD_absent _ _ _ h
  · intro h
    rw [normalizeRecord, foldl_normStep_last]
    exact lastValueD_absent _ _ _ h

/-- Witness for C4 at a concrete record holding an unrecognized `@ptr` field
and no `@timestamp` field. -/
theorem claim_C4_witness :
    (normalizeRecord [("@ptr", "p"), ("@message", "M1")]).Timestamp = "" :=
  ((claim_C4_record_normalization []).2 [("@ptr", "p"), ("@message", "M1")]).2.1 (by decide)

/-- C10: when a recognized field name occurs more than once in a raw record,
the normalized result keeps the value of the last occurrence - each output
field equals the last value bound to its name (or "" when the name is
absent), so earlier occurrences are overwritten. -/
theorem claim_C10_last_occurrence_wins (record : List (String × String)) :
    normalizeRecord record =
      ⟨lastValueD "@timestamp" record "", lastValueD "@logStream" record "",
       lastValueD "@message" record ""⟩ :=
  foldl_normStep_last record ⟨"", "", ""⟩

/-- C7: `AssembleQuery "error"` yields exactly the template instantiated with
the keyword `error`, and in general the keyword is interpolated into the
fixed template verbatim, with no escaping and never an error. -/
theorem claim_C7_query_template :
    AssembleQuery "error"
      = ("fields @timestamp, @message, @logStream | filter @message error", none) ∧
    ∀ keyword : String, AssembleQuery keyword
      = ("fields @timestamp, @message, @logStream | filter @message " ++ keyword, none) :=
  ⟨by decide, fun _ => rfl⟩

/-- C9: `AssembleQuery` always returns a nil error, so the orchestrator's
query-build error branch never fires and the run equals the plain loop. -/
theorem claim_C9_build_error_unreachable :
    (∀ keyword : String, (AssembleQuery keyword).2 = none) ∧
    ∀ (svc : CWService) (st en kw : String),
      mainRun svc st en kw
        = runLoop svc st en (AssembleQuery kw).1 (GetGroupAll svc.describeLogGroups) :=
  ⟨fun _ => rfl, fun _ _ _ _ => rfl⟩

/-- C5: a discovery service error makes `GetGroupAll` return the empty
sequence instead of propagating, and the whole run then ends normally with
zero output lines. -/
theorem claim_C5_discovery_error_swallowed (e : String)
    (sq : StartQueryInput → Except String String)
    (gq : String → List (Except String Response)) (st en kw : String) :
    GetGroupAll (.error e) = [] ∧
    mainRun ⟨.error e, sq, gq⟩ st en kw = ([], .normal) :=
  ⟨rfl, rfl⟩

/-- The record of the mocked query service of the spec's orchestration test. -/
def completeRecord : List (String × String) :=
  [("@timestamp", "T1"), ("@message", "M1"), ("@logStream", "S1")]

/-- The mocked services of the spec's orchestration test: discovery returns
the two groups, and every query reports "Complete" on the first get-results
call with the one record above. -/
def mockImmediateService : CWService where
  describeLogGroups := .ok ["/app/a", "/app/b"]
  startQuery := fun inp => .ok inp.group
  getQueryResults := fun _ => [.ok ⟨"Complete", [completeRecord]⟩]

/-- C1: with discovery returning `/app/a` and `/app/b` and every query
complete on the first get-results call with the single record
`@timestamp=T1, @message=M1, @logStream=S1`, the main loop emits exactly the
two lines `M1`, `M1`, in discovery order, and the run ends normally. -/
theorem claim_C1_orchestrator_two_lines :
    mainRun mockImmediateService
        "2022-09-22T00:00:00+09:00" "2022-09-22T00:30:00+09:00" "error"
      = (["M1", "M1"], .normal) := by decide

/-- A response stream reporting "Running" on the first two calls and
"Complete" with one record on the third. -/
def runningRunningComplete : List (Except String Response) :=
  [.ok ⟨"Running", []⟩, .ok ⟨"Running", []⟩, .ok ⟨"Complete", [[("@message", "M1")]]⟩]

/-- Counterexample to C2 as stated: with "Running" on the first two calls and
"Complete" on the third, the poller's actual trace is call, call, sleep,
call, sleep - there is no sleep between the first and second calls, and a
sleep does follow the final call - which differs from the claimed trace of a
sleep strictly between each pair of calls and none after the final call. -/
theorem claim_C2_counterexample :
    Result runningRunningComplete true
      = some (.ok ([⟨"", "", "M1"⟩], [.call, .call, .sleep 10, .call, .sleep 10])) ∧
    [Ev.call, .call, .sleep 10, .call, .sleep 10]
      ≠ [Ev.call, .sleep 10, .call, .sleep 10, .call] := by decide

/-- C2 (amended): when the service reports "Running" on the first two
get-results calls and "Complete" on the third, the poller issues exactly
three calls and returns the normalization of the third call's records; the
ten-second sleeps come after each reissued call - after the second and after
the third (final) call - with no sleep between the first and second calls. -/
theorem claim_C2_poll_loop (r1 r2 r3 : List (List (String × String))) :
    Result [.ok ⟨"Running", r1⟩, .ok ⟨"Running", r2⟩, .ok ⟨"Complete", r3⟩] true
      = some (.ok (normalize r3, [.call, .call, .sleep 10, .call, .sleep 10])) ∧
    List.count Ev.call [Ev.call, .call, .sleep 10, .call, .sleep 10] = 3 :=
  ⟨rfl, by decide⟩

/-- C6: in the main loop, an error submitting the query for a group prints
that error and aborts the whole run with exit code 1, and an error fetching
or polling results for a group likewise terminates the whole run immediately
with a non-zero exit - in both cases the remaining groups are never
processed.  (The query-build error branch cannot fire, `AssembleQuery` never
failing, so the build part of the claim holds vacuously.) -/
theorem claim_C6_per_group_errors_fatal (svc : CWService)
    (st en q g e : String) (rest : List String) :
    (DoQuery st en svc.startQuery g q = .error e →
      runLoop svc st en q (g :: rest) = ([e], .exit 1)) ∧
    (∀ qid, DoQuery st en svc.startQuery g q = .ok qid →
      Result (svc.getQueryResults qid) true = some (.error e) →
      runLoop svc st en q (g :: rest) = ([], .exit 1)) := by
  constructor
  · intro h
    simp [runLoop, h]
  · intro qid h1 h2
    simp [runLoop, h1, h2]

/-- A service whose start-query call fails. -/
def failingStartService : CWService where
  describeLogGroups := .ok ["/g"]
  startQuery := fun _ => .error "boom"
  getQueryResults := fun _ => []

/-- Witness for C6: a concrete failing submission aborts the run with exit
code 1. -/
theorem claim_C6_witness :
    runLoop failingStartService
        "2022-09-22T00:00:00+09:00" "2022-09-22T00:30:00+09:00" "q" ["/g", "/h"]
      = (["boom"], .exit 1) :=
  (claim_C6_per_group_errors_fatal failingStartService
    "2022-09-22T00:00:00+09:00" "2022-09-22T00:30:00+09:00" "q" "/g" "boom" ["/h"]).1
    (by decide)

/-- Counterexample to C3 as stated: the valid RFC-3339 timestamp
`9999-01-01T00:00:00Z` parses, but its epoch-nanosecond value overflows a
signed 64-bit integer, so `UnixMillisecond` wraps and returns
-4883652231933 instead of the true millisecond epoch value 253370764800000. -/
theorem claim_C3_counterexample :
    ParseTime "9999-01-01T00:00:00Z" = some ⟨253370764800, 0⟩ ∧
    UnixMillisecond ⟨253370764800, 0⟩ = -4883652231933 ∧
    Int.tdiv (unixNanoExact ⟨253370764800, 0⟩) 1000000 = 253370764800000 ∧
    (-4883652231933 : Int) ≠ 253370764800000 := by decide

/-- C3 (amended): for every RFC-3339 timestamp accepted by `ParseTime` whose
epoch-nanosecond value fits in a signed 64-bit integer, `UnixMillisecond`
returns exactly the milliseconds since the epoch, truncating sub-millisecond
precision toward zero. -/
theorem claim_C3_epoch_milliseconds (s : String) (t : GoTime)
    (_hp : ParseTime s = some t)
    (hlo : -(2 ^ 63) ≤ unixNanoExact t) (hhi : unixNanoExact t < 2 ^ 63) :
    UnixMillisecond t = Int.tdiv (unixNanoExact t) 1000000 := by
  have hwrap : UnixNano t = unixNanoExact t := by
    unfold UnixNano wrap64
    have h1 : (0 : Int) ≤ unixNanoExact t + 2 ^ 63 := by linarith
    have h2 : unixNanoExact t + 2 ^ 63 < 2 ^ 64 := by
      have : (2 : Int) ^ 64 = 2 ^ 63 + 2 ^ 63 := by norm_num
      linarith
    rw [Int.emod_eq_of_lt h1 h2]
    ring
  unfold UnixMillisecond
  rw [hwrap]

/-- Witness for C3 at the concrete in-range timestamp
`2022-09-22T00:00:00+09:00`, whose epoch second is 1663772400. -/
theorem claim_C3_witness :
    UnixMillisecond ⟨1663772400, 0⟩ = Int.tdiv (unixNanoExact ⟨1663772400, 0⟩) 1000000 :=
  claim_C3_epoch_milliseconds "2022-09-22T00:00:00+09:00" ⟨1663772400, 0⟩
    (by decide) (by decide) (by decide)

/-! ## Inclusion of the strict profile in the parser's accepted language -/

theorem getnum2_sub {l : List Char} {r : Nat × List Char}
    (h : getnum2 l = some r) : getnum1or2 l = some r := by
  match l with
  | [] => simp [getnum2] at h
  | [c1] => simp [getnum2] at h
  | c1 :: c2 :: rest =>
    simp only [getnum2] at h
    by_cases hd : isDigitChar c1 && isDigitChar c2
    · rw [if_pos hd] at h
      rw [Bool.and_eq_true] at hd
      injection h with h
      subst h
      simp [getnum1or2, hd.1, hd.2]
    · rw [if_neg hd] at h
      exact absurd h (by simp)

theorem zoneTail_sub {c0 : Char} {l : List Char} {r : Int × List Char}
    (h : strictZoneTail c0 l = some r) : zoneTail c0 l = some r := by
  match l with
  | [] => simp [strictZoneTail] at h
  | [a1] => simp [strictZoneTail] at h
  | [a1, a2] => simp [strictZoneTail] at h
  | [a1, a2, a3] => simp [strictZoneTail] at h
  | [a1, a2, a3, a4] => simp [strictZoneTail] at h
  | a1 :: a2 :: a3 :: a4 :: a5 :: rest2 =>
    simp only [strictZoneTail] at h
    simp only [zoneTail]
    by_cases hc : ((a3 = ':') && isDigitChar a1 && isDigitChar a2 && isDigitChar a4
        && isDigitChar a5 && (c0 = '+' || c0 = '-'))
        && (10 * digitVal a1 + digitVal a2 < 24) && (10 * digitVal a4 + digitVal a5 < 60)
    · rw [if_pos hc] at h
      rw [Bool.and_eq_true, Bool.and_eq_true] at hc
      rw [if_pos hc.1.1]
      exact h
    · rw [if_neg hc] at h
      exact absurd h (by simp)

theorem strictZone_sub {l : List Char} {r : Int × List Char}
    (h : strictZone l = some r) : parseZone l = some r := by
  match l with
  | [] => simp [strictZone] at h
  | c0 :: rest =>
    simp only [strictZone] at h
    simp only [parseZone]
    by_cases hz : c0 = 'Z'
    · rw [if_pos hz] at h
      rw [if_pos hz]
      exact h
    · rw [if_neg hz] at h
      rw [if_neg hz]
      exact zoneTail_sub h

theorem fracStep_agrees {s : List Char} {r : Int × List Char}
    (h : strictZone (strictFracStep s).2 = some r) : fracStep s = strictFracStep s := by
  match s with
  | [] => rfl
  | [c] => rfl
  | c1 :: c2 :: rest =>
    by_cases hp : (c1 = '.') && isDigitChar c2
    · have hp' := hp
      rw [Bool.and_eq_true, decide_eq_true_eq] at hp'
      have hlen : ((c1 = '.' || c1 = ',') && isDigitChar c2) = true := by
        simp [hp'.1, hp'.2]
      simp only [fracStep, strictFracStep]
      rw [if_pos hlen, if_pos hp]
    · by_cases hq : (c1 = '.' || c1 = ',') && isDigitChar c2
      · exfalso
        have hq' := hq
        rw [Bool.and_eq_true, Bool.or_eq_true, decide_eq_true_eq, decide_eq_true_eq] at hq'
        have hc1 : c1 = ',' := by
          rcases hq'.1 with h' | h'
          · exact absurd (by simp [h', hq'.2] : ((c1 = '.') && isDigitChar c2) = true) hp
          · exact h'
        have hfs : strictFracStep (c1 :: c2 :: rest) = (0, c1 :: c2 :: rest) := by
          simp only [strictFracStep]
          rw [if_neg hp]
        rw [hfs] at h
        subst hc1
        rcases rest with _ | ⟨a1, _ | ⟨a2, _ | ⟨a3, _ | ⟨a4, rest2⟩⟩⟩⟩ <;>
          simp [strictZone, strictZoneTail] at h
      · simp only [fracStep, strictFracStep]
        rw [if_neg hp, if_neg hq]

theorem strictRFC3339_sub {l : List Char} {t : GoTime}
    (h : strictRFC3339 l = some t) : parseRFC3339 l = some t := by
  unfold strictRFC3339 at h
  unfold parseRFC3339
  rw [Option.bind_eq_some] at h
  obtain ⟨ys, h4, h⟩ := h
  rw [h4]; simp only [Option.some_bind]
  rw [Option.bind_eq_some] at h
  obtain ⟨s1, hl1, h⟩ := h
  rw [hl1]; simp only [Option.some_bind]
  rw [Option.bind_eq_some] at h
  obtain ⟨mos, hmo, h⟩ := h
  rw [hmo]; simp only [Option.some_bind]
  rw [Option.bind_eq_some] at h
  obtain ⟨s2, hl2, h⟩ := h
  rw [hl2]; simp only [Option.some_bind]
  rw [Option.bind_eq_some] at h
  obtain ⟨ds, hd, h⟩ := h
  rw [hd]; simp only [Option.some_bind]
  rw [Option.bind_eq_some] at h
  obtain ⟨s3, hl3, h⟩ := h
  rw [hl3]; simp only [Option.some_bind]
  rw [Option.bind_eq_some] at h
  obtain ⟨hrs, hh, h⟩ := h
  rw [getnum2_sub hh]; simp only [Option.some_bind]
  by_cases h24 : 24 ≤ hrs.1
  · rw [if_pos h24] at h; exact absurd h (by simp)
  rw [if_neg h24] at h
  rw [if_neg h24]
  rw [Option.bind_eq_some] at h
  obtain ⟨s4, hl4, h⟩ := h
  rw [hl4]; simp only [Option.some_bind]
  rw [Option.bind_eq_some] at h
  obtain ⟨mis, hmi, h⟩ := h
  rw [hmi]; simp only [Option.some_bind]
  by_cases h60 : 60 ≤ mis.1
  · rw [if_pos h60] at h; exact absurd h (by simp)
  rw [if_neg h60] at h
  rw [if_neg h60]
  rw [Option.bind_eq_some] at h
  obtain ⟨s5, hl5, h⟩ := h
  rw [hl5]; simp only [Option.some_bind]
  rw [Option.bind_eq_some] at h
  obtain ⟨ses, hse, h⟩ := h
  rw [hse]; simp only [Option.some_bind]
  by_cases h60s : 60 ≤ ses.1
  · rw [if_pos h60s] at h; exact absurd h (by simp)
  rw [if_neg h60s] at h
  rw [if_neg h60s]
  rw [Option.bind_eq_some] at h
  obtain ⟨zs, hz, h⟩ := h
  have hfr : fracStep ses.2 = strictFracStep ses.2 := fracStep_agrees hz
  rw [hfr, strictZone_sub hz]; simp only [Option.some_bind]
  by_cases htr : zs.2 ≠ []
  · rw [if_pos htr] at h; exact absurd h (by simp)
  rw [if_neg htr] at h
  rw [if_neg htr]
  by_cases hmrange : mos.1 < 1 ∨ 12 < mos.1
  · rw [if_pos hmrange] at h; exact absurd h (by simp)
  rw [if_neg hmrange] at h
  rw [if_neg hmrange]
  by_cases hdrange : ds.1 < 1 ∨ daysIn mos.1 ys.1 < ds.1
  · rw [if_pos hdrange] at h; exact absurd h (by simp)
  rw [if_neg hdrange] at h
  rw [if_neg hdrange]
  exact h

/-- Counterexample to C8 as stated: the parser does not reject every string
outside the strict RFC-3339 profile - `2022-09-22T5:04:05Z`, whose hour has
a single digit and therefore does not conform, is accepted. -/
theorem claim_C8_counterexample :
    conformsRFC3339 "2022-09-22T5:04:05Z" = false ∧
    (ParseTime "2022-09-22T5:04:05Z").isSome = true := by decide

/-- C8 (amended): `ParseTime` succeeds on every string conforming to the
expected RFC-3339 profile, and it rejects the claim's nonconforming example
shapes - a date-only string and a string missing a UTC offset - though it
also accepts some slight relaxations of the profile (a one-digit hour, a
comma before the fraction). -/
theorem claim_C8_parse_rfc3339_profile :
    (∀ s : String, conformsRFC3339 s = true → (ParseTime s).isSome = true) ∧
    ParseTime "2022-09-22" = none ∧
    ParseTime "2022-09-22T00:00:00" = none := by
  refine ⟨fun s h => ?_, by decide, by decide⟩
  rw [conformsRFC3339, Option.isSome_iff_exists] at h
  obtain ⟨t, ht⟩ := h
  rw [ParseTime, strictRFC3339_sub ht]
  rfl

/-- Witness for C8 at a concrete conforming timestamp string. -/
theorem claim_C8_witness :
    (ParseTime "2022-09-22T00:00:00+09:00").isSome = true :=
  claim_C8_parse_rfc3339_profile.1 "2022-09-22T00:00:00+09:00" (by decide)

end CWC
